import Mathlib

/-!
Verification of the daily-aggregation / folder-scanning / log-flattening core
of the multimodal traffic-data-analysis repository.  Every definition below is
a shallow embedding of a Python function under `scripts/archive/`; the source
file and symbol are named in each doc comment.  Machine floats are modelled by
`ℚ` (exact values; the settled properties are branch- and structure-level, not
rounding-level), Python exceptions by `Except PyErr`, and the filesystem by
explicit listing functions where a script touches it.
-/

namespace Taxi

/-- Outcomes of the Python exceptions that the modelled code can raise. -/
inductive PyErr where
  | fileNotFound (msg : String)
  | valueError (msg : String)
  | indexError
  | typeError
  | keyError
  | assertionError (msg : String)
  | runtimeError (msg : String)
  | systemExit (code : Nat)
deriving DecidableEq

/-! ## Folder-name validation (`scripts/archive/utils.py`) -/

/-- The body of `FOLDER_PATTERN = re.compile(r"^\d{4}-\d{2}-\d{2}(_[hl])?$")`:
whether a character list is exactly `\d{4}-\d{2}-\d{2}` optionally followed by
`_h` or `_l`.  (`\d` is modelled as an ASCII digit; the dataset's folder names
are ASCII.) -/
def matchesFolderCore : List Char → Bool
  | [a, b, c, d, '-', e, f, '-', g, h] =>
      a.isDigit && b.isDigit && c.isDigit && d.isDigit &&
      e.isDigit && f.isDigit && g.isDigit && h.isDigit
  | [a, b, c, d, '-', e, f, '-', g, h, '_', q] =>
      a.isDigit && b.isDigit && c.isDigit && d.isDigit &&
      e.isDigit && f.isDigit && g.isDigit && h.isDigit &&
      (q == 'h' || q == 'l')
  | _ => false

/-- `utils.is_valid_folder_name`: `bool(FOLDER_PATTERN.match(folder_name))`.
In Python's `re`, the `$` anchor matches at the end of the string *or just
before a single newline at the very end of the string*, so a name such as
`"2023-10-21\n"` is also accepted by the source. -/
def is_valid_folder_name (s : String) : Bool :=
  matchesFolderCore s.data ||
    (s.data.getLast? == some '\n' && matchesFolderCore s.data.dropLast)

/-- Modelled from the spec's words (for comparison with
`is_valid_folder_name`): a string of exactly the form `YYYY-MM-DD`,
`YYYY-MM-DD_h` or `YYYY-MM-DD_l` — four digits, dash, two digits, dash, two
digits, optional quality suffix — and nothing else. -/
def specFolderName (s : String) : Bool := matchesFolderCore s.data

/-- Split a character list at every character satisfying `p` (keeping empty
pieces), the shape of Python `s.split(sep)`: `"" → [""]`, `"a_b" → ["a",
"b"]`, `"_" → ["", ""]`. -/
def splitAtPred (p : Char → Bool) : List Char → List (List Char)
  | [] => [[]]
  | x :: xs =>
      let r := splitAtPred p xs
      if p x then [] :: r
      else
        match r with
        | [] => [[x]]
        | y :: ys => (x :: y) :: ys

/-- Python `s.split(sep)` for a one-character separator, over character
lists. -/
def splitOnChar (c : Char) : List Char → List (List Char) :=
  splitAtPred (fun x => x == c)

/-- `utils.parse_folder_name`.  With no underscore the result is
`(name, "u")`; with one underscore the two parts.  (On two or more
underscores the Python tuple unpacking would raise `ValueError`; that case is
unreachable from regex-matching candidates, and falls into the catch-all
branch here.) -/
def parse_folder_name (s : String) : String × String :=
  match splitOnChar '_' s.data with
  | [d, q] => (⟨d⟩, ⟨q⟩)
  | _ => (s, "u")

/-- `utils.extract_date`: `folder_name.split("_")[0]`. -/
def extract_date (s : String) : String :=
  ⟨(splitOnChar '_' s.data).headD s.data⟩

/-! ## Calendar-date validation (`utils.is_valid_date`) -/

def digitVal (c : Char) : Nat := c.toNat - '0'.toNat

def isLeapYear (y : Nat) : Bool := (y % 4 == 0 && y % 100 != 0) || y % 400 == 0

def daysInMonth (y m : Nat) : Nat :=
  if m == 2 then (if isLeapYear y then 29 else 28)
  else if m == 4 || m == 6 || m == 9 || m == 11 then 30
  else 31

/-- Parse a string of the exact shape `YYYY-MM-DD` into `(year, month, day)`
when it denotes a real calendar date, as `datetime.strptime(s, "%Y-%m-%d")`
succeeds on it.  (`strptime` tolerates shorter digit runs, but every string
this is applied to in the scanner comes from the fixed-width folder regex, on
which the two agree; `strptime` also rejects year 0, which the year-range
check below rejects anyway.) -/
def parseYMD (s : String) : Option (Nat × Nat × Nat) :=
  match s.data with
  | [a, b, c, d, '-', e, f, '-', g, h] =>
      if a.isDigit && b.isDigit && c.isDigit && d.isDigit &&
         e.isDigit && f.isDigit && g.isDigit && h.isDigit then
        let y := ((digitVal a * 10 + digitVal b) * 10 + digitVal c) * 10 + digitVal d
        let m := digitVal e * 10 + digitVal f
        let day := digitVal g * 10 + digitVal h
        if decide (1 ≤ y ∧ 1 ≤ m ∧ m ≤ 12 ∧ 1 ≤ day ∧ day ≤ daysInMonth y m) then
          some (y, m, day)
        else none
      else none
  | _ => none

/-- `utils.VALID_YEAR_MIN`. -/
def VALID_YEAR_MIN : Nat := 2022

/-- `utils.VALID_YEAR_MAX`. -/
def VALID_YEAR_MAX : Nat := 2025

/-- `utils.is_valid_date`: the string parses as a real calendar date and its
year lies in the inclusive range `[VALID_YEAR_MIN, VALID_YEAR_MAX]`. -/
def is_valid_date (s : String) : Bool :=
  match parseYMD s with
  | some (y, _, _) => decide (VALID_YEAR_MIN ≤ y ∧ y ≤ VALID_YEAR_MAX)
  | none => false

/-- `utils.is_valid_year`: `int(date_str[:4])` within the range (`False` on
any exception, e.g. non-digit characters or a short string whose prefix is
not an integer). -/
def is_valid_year (s : String) : Bool :=
  match s.data with
  | a :: b :: c :: d :: _ =>
      if a.isDigit && b.isDigit && c.isDigit && d.isDigit then
        let y := ((digitVal a * 10 + digitVal b) * 10 + digitVal c) * 10 + digitVal d
        decide (VALID_YEAR_MIN ≤ y ∧ y ≤ VALID_YEAR_MAX)
      else false
  | _ => false

/-! ## Filesystem model and the folder scanner (`utils.py`, `scan_dataset.py`) -/

/-- The slice of the filesystem the scanner touches.  `listdir root = none`
models a directory that does not exist (`os.listdir` raising
`FileNotFoundError`); `some entries` its entry names.  `stats` is the
`(file_count, total_size)` pair `compute_folder_stats` reports for a path
(that function swallows every `stat` failure, so it is total). -/
structure FS where
  listdir : String → Option (List String)
  isdir : String → Bool
  stats : String → Nat × Nat

def pathJoin (a b : String) : String := a ++ "/" ++ b

/-- Insertion step of Python's `sorted` over strings (lexicographic by code
point, which is the order of `String`'s linear order). -/
def insertSorted (x : String) : List String → List String
  | [] => [x]
  | y :: ys => if x ≤ y then x :: y :: ys else y :: insertSorted x ys

/-- Python's `sorted` on a list of strings. -/
def sortStrings (l : List String) : List String := l.foldr insertSorted []

/-- `utils.list_candidate_folders`: names in `root` that match the folder
regex and are directories, sorted.  The source catches `FileNotFoundError`
from `os.listdir` and returns the empty list, so a missing root yields `[]`
rather than an error. -/
def list_candidate_folders (fs : FS) (root : String) : List String :=
  match fs.listdir root with
  | none => []
  | some entries =>
      sortStrings (entries.filter
        (fun d => is_valid_folder_name d && fs.isdir (pathJoin root d)))

/-- `utils.list_valid_folders`: candidates whose date part passes the
year-range check. -/
def list_valid_folders (fs : FS) (root : String) : List String :=
  sortStrings ((list_candidate_folders fs root).filter
    (fun d => is_valid_year (extract_date d)))

/-- `utils.list_invalid_year_folders`: candidates failing the year-range
check. -/
def list_invalid_year_folders (fs : FS) (root : String) : List String :=
  sortStrings ((list_candidate_folders fs root).filter
    (fun d => !is_valid_year (extract_date d)))

/-- One row of `dataset_summary.csv` (`scan_modality_root`, valid branch). -/
structure ValidRecord where
  date : String
  modality : String
  quality : String
  file_count : Nat
  total_size : Nat
deriving DecidableEq

/-- One row of `dataset_invalid_dates.csv` (`scan_modality_root`, invalid
branch). -/
structure InvalidRecord where
  folder_name : String
  parsed_date : String
  modality : String
  quality : String
  file_count : Nat
  total_size : Nat
  reason : String
deriving DecidableEq

def validRecordOf (fs : FS) (root modality folder : String) : ValidRecord :=
  let p := parse_folder_name folder
  let st := fs.stats (pathJoin root folder)
  { date := p.1, modality := modality, quality := p.2,
    file_count := st.1, total_size := st.2 }

def invalidRecordOf (fs : FS) (root modality folder : String) : InvalidRecord :=
  let p := parse_folder_name folder
  let st := fs.stats (pathJoin root folder)
  { folder_name := folder, parsed_date := p.1, modality := modality,
    quality := p.2, file_count := st.1, total_size := st.2,
    reason := "invalid_year_or_bad_date" }

/-- The loop body of `utils.scan_modality_root` over the candidate list:
each candidate's record is appended to the valid list when
`is_valid_date(date_str)` holds and to the invalid list otherwise. -/
def scanFolders (fs : FS) (root modality : String) :
    List String → List ValidRecord × List InvalidRecord
  | [] => ([], [])
  | folder :: rest =>
      let acc := scanFolders fs root modality rest
      if is_valid_date (parse_folder_name folder).1 then
        (validRecordOf fs root modality folder :: acc.1, acc.2)
      else
        (acc.1, invalidRecordOf fs root modality folder :: acc.2)

/-- `utils.scan_modality_root`. -/
def scan_modality_root (fs : FS) (root modality : String) :
    List ValidRecord × List InvalidRecord :=
  scanFolders fs root modality (list_candidate_folders fs root)

/-! ## CSV loading (`daily_join.load_csv`) -/

/-- A loaded CSV, reduced to what `load_csv` inspects: its column names. -/
structure CsvFile where
  columns : List String
deriving DecidableEq

/-- `daily_join.load_csv`: raise `FileNotFoundError` when the path does not
exist, `ValueError` when the `date` column is absent, otherwise return the
table (with its date column normalized, which does not change the columns
modelled here). -/
def load_csv (files : String → Option CsvFile) (path : String) :
    Except PyErr CsvFile :=
  match files path with
  | none => .error (.fileNotFound ("Missing file: " ++ path))
  | some df =>
      if df.columns.contains "date" then .ok df
      else .error (.valueError ("date column not found in " ++ path))

/-! ## Daily aggregation (`audio_quality_daily.py`, `image_quality_daily.py`)

Both scripts are identical in the aspects verified here: load a per-file CSV
(raising `FileNotFoundError` when it is missing), group by the parsed `date`
column, aggregate one row per date — a count of the key column
(`relative_path` for audio, `file_name` for images) and means/percentiles of
the metric columns — assert that the per-date counts sum to the number of
input rows, and only then write the output.  `MetricRow` models one row of
the per-file CSV: `date` is the parsed date key (`none` models `NaT`, which
`groupby` drops), `key` the counted column (`none` models `NaN`, which
`count` skips), `metric` one numeric metric column (`none` models `NaN`,
which `mean` skips while the row still counts). -/

structure MetricRow where
  date : Option Nat
  key : Option String
  metric : Option ℚ
deriving DecidableEq

/-- Insert a date into a sorted duplicate-free list of dates (the shape of
pandas' sorted distinct group keys). -/
def insertDate (d : Nat) : List Nat → List Nat
  | [] => [d]
  | x :: xs =>
      if d < x then d :: x :: xs
      else if d = x then x :: xs
      else x :: insertDate d xs

/-- The distinct non-null dates of a table, sorted — the group keys of
`df.groupby("date")` (which drops `NaT` keys and sorts). -/
def datesOf (t : List MetricRow) : List Nat :=
  t.foldr (fun r acc => match r.date with | some d => insertDate d acc | none => acc) []

/-- The rows of one `groupby("date")` group. -/
def groupOf (t : List MetricRow) (d : Nat) : List MetricRow :=
  t.filter (fun r => r.date == some d)

/-- One output row of the daily aggregation: the per-date record count
(`n_audio` / `n_images`) and the per-date mean of the metric.  The scripts
also emit percentile columns; the additivity claim is scoped to count and
mean, so only those are carried. -/
structure DailyRow where
  date : Nat
  n : Nat
  metric_mean : Option ℚ
deriving DecidableEq

def dailyRowOf (t : List MetricRow) (d : Nat) : DailyRow :=
  let g := groupOf t d
  let xs := g.filterMap (fun r => r.metric)
  { date := d,
    n := (g.filter (fun r => r.key.isSome)).length,
    metric_mean := if xs.length = 0 then none else some (xs.sum / (xs.length : ℚ)) }

/-- The `groupby("date").agg(...)` result, one row per distinct date, sorted
by date. -/
def dailyAggregate (t : List MetricRow) : List DailyRow :=
  (datesOf t).map (dailyRowOf t)

/-- The sum of the per-date counts (`daily["n_audio"].sum()`). -/
def sumCounts (rows : List DailyRow) : Nat := (rows.map (fun r => r.n)).sum

/-- `main` of `audio_quality_daily.py` / `image_quality_daily.py`:
`none` input models a missing input CSV (`INPUT_CSV.exists()` fails →
`FileNotFoundError`); otherwise aggregate, run the
`assert daily["n_audio"].sum() == df.shape[0]` integrity check, and only on
success return the table that `to_csv` then writes.  The error branches
return before anything is written. -/
def daily_main (input : Option (List MetricRow)) (inputName : String) :
    Except PyErr (List DailyRow) :=
  match input with
  | none => .error (.fileNotFound ("Missing input file: " ++ inputName))
  | some df =>
      let daily := dailyAggregate df
      if sumCounts daily = df.length then .ok daily
      else .error (.assertionError "ERROR: Aggregation dropped rows")

/-! ## Audio-quality / sensor daily join
(`join_audio_quality_and_sensor_daily.py`) -/

/-- One row of `audio_quality_daily.csv` (the primary side), reduced to the
columns the join logic reads. -/
structure AQDailyRow where
  date : Nat
  n_audio : Nat
deriving DecidableEq

/-- One row of `audio_sensor_daily.csv` (the secondary side); `n_events` is
`none` when the sensor value is blank/NaN after numeric coercion. -/
structure SensorRow where
  date : Nat
  n_events : Option ℚ
deriving DecidableEq

structure JoinedRow where
  date : Nat
  n_audio : Nat
  n_events : Option ℚ
  sensor_missing : Bool
  sensor_present : Bool
deriving DecidableEq

/-- `aq.merge(asens, on="date", how="left")` followed by the
`sensor_missing` / `sensor_present` flag columns: one output row per primary
row, carrying the matching secondary `n_events` when a row with the same date
exists (NaN — `none` — when there is no match or the matched value is null),
and `sensor_missing = n_events.isna()`.  This models the merge for a
secondary table with distinct dates, which the settled claim assumes. -/
def joinAudioSensor (aq : List AQDailyRow) (asens : List SensorRow) :
    List JoinedRow :=
  aq.map (fun p =>
    let ne := (asens.find? (fun s2 => s2.date == p.date)).bind (fun s2 => s2.n_events)
    { date := p.date, n_audio := p.n_audio, n_events := ne,
      sensor_missing := ne.isNone, sensor_present := !ne.isNone })

/-! ## Sampled amplitude extraction (`audio_amplitude_scan_sampled.py`) -/

/-- Sum of squared sample amplitudes of a decoded waveform. -/
def sumSquares (y : List ℚ) : ℚ := (y.map (fun v => v * v)).sum

/-- The mean square `np.mean(y ** 2)` (the script only computes it for
non-empty `y`: zero-length waveforms are skipped with `continue`). -/
def rmsSq (y : List ℚ) : ℚ := sumSquares y / (y.length : ℚ)

/-- `rms = np.sqrt(np.mean(y ** 2))`. -/
noncomputable def rms (y : List ℚ) : ℝ := Real.sqrt ((rmsSq y : ℚ) : ℝ)

/-- `peak = np.max(np.abs(y))` (again only reached for non-empty `y`). -/
def peak_amplitude (y : List ℚ) : ℚ := (y.map (fun v => |v|)).foldr max 0

/-- The comparison `rms > 0` the script branches on is decidable: the square
root of the nonnegative rational mean square is positive exactly when the
mean square is. -/
instance (priority := 1100) rmsPosDecidable (y : List ℚ) : Decidable (0 < rms y) :=
  decidable_of_iff (0 < rmsSq y) (by
    simp only [rms, Real.sqrt_pos, Rat.cast_pos])

/-- The `"crest_factor": peak / rms if rms > 0 else np.nan` field of a
sampled row: `none` models the NaN written when `rms == 0`; no division is
performed in that branch. -/
noncomputable def crest_factor (y : List ℚ) : Option ℝ :=
  if 0 < rms y then some ((peak_amplitude y : ℝ) / rms y) else none

/-- One row the sampled scan appends, reduced to the column the finalize
stage inspects (`date`, fed to `pd.to_datetime(..., errors="coerce")`); the
numeric amplitude columns play no role in the emptiness/write behaviour
settled here. -/
structure SampledRow where
  file : String
  date : String
deriving DecidableEq

/-- `pd.to_datetime(s, format="%Y-%m-%d", errors="coerce")` succeeds (is not
`NaT`): the string is a real `YYYY-MM-DD` calendar date. -/
def dateParses (s : String) : Bool := (parseYMD s).isSome

/-- The finalize stage of `audio_amplitude_scan_sampled.main`: after the
collection loop builds `rows`, raise `RuntimeError` when `rows` is empty
(before any output is written); otherwise coerce the date column, drop rows
whose date failed to parse, and write the result.  The returned table is what
`to_csv` writes. -/
def sampled_main (rows : List SampledRow) : Except PyErr (List SampledRow) :=
  if rows.isEmpty then
    .error (.runtimeError "Sampling produced no rows — check AUDIO_ROOT")
  else
    .ok (rows.filter (fun r => dateParses r.date))

/-- The collection/write stage of `audio_quality.main`: worker results that
are error records (`{"error": ..., "path": ...}`) are counted, successful
rows are kept, and `df.to_csv` writes the kept rows unconditionally — there
is no emptiness check, so the pair (error count, written table) is returned
on every run, with no error path. -/
def audio_quality_main (results : List (Except String MetricRow)) :
    Nat × List MetricRow :=
  ( (results.filter (fun r => match r with | .error _ => true | .ok _ => false)).length,
    results.filterMap (fun r => match r with | .ok row => some row | .error _ => none) )

/-! ## Log flattening (`parse_logs_to_csv.py`) -/

/-- A JSON value as `json.loads` produces it.  Python represents JSON `null`
as `None`, which is also what `dict.get` returns for an absent key, so
`JVal.null` models both. -/
inductive JVal where
  | null
  | bool' (v : Bool)
  | num (q : ℚ)
  | str (s : String)
  | arr (l : List JVal)
  | obj (l : List (String × JVal))

/-- `rec.get(key)`: the first value bound to `key`, `None` (`null`) when
absent. -/
def jget (rec : List (String × JVal)) (key : String) : JVal :=
  match rec.find? (fun kv => kv.1 == key) with
  | some kv => kv.2
  | none => .null

/-- Python truthiness of a JSON-derived value. -/
def pyTruthy : JVal → Bool
  | .null => false
  | .bool' v => v
  | .num q => q != 0
  | .str s => !s.isEmpty
  | .arr l => !l.isEmpty
  | .obj l => !l.isEmpty

/-- `v or []`. -/
def pyOrEmpty (v : JVal) : JVal := if pyTruthy v then v else .arr []

/-- `len(v)`: defined on strings, lists and dicts, `TypeError` otherwise. -/
def pyLen : JVal → Except PyErr Nat
  | .str s => .ok s.length
  | .arr l => .ok l.length
  | .obj l => .ok l.length
  | _ => .error .typeError

/-- `v[i]` for a nonnegative integer `i`: list indexing (`IndexError` out of
range), string indexing (a one-character string), dict lookup (`KeyError`:
JSON object keys are strings, so an integer key is never present), and
`TypeError` on everything else. -/
def pyIndex : JVal → Nat → Except PyErr JVal
  | .arr l, i => if h : i < l.length then .ok (l.get ⟨i, h⟩) else .error .indexError
  | .str s, i =>
      if h : i < s.data.length then .ok (.str (String.mk [s.data.get ⟨i, h⟩]))
      else .error .indexError
  | .obj _, _ => .error .keyError
  | _, _ => .error .typeError

/-- The whitespace set of Python's `str.split()` (no separator argument). -/
def pyIsSpace (c : Char) : Bool :=
  c == ' ' || c == '\t' || c == '\n' || c == '\r' || c == '\x0b' || c == '\x0c'

/-- Python `s.split()`: split on runs of whitespace, discarding empty
pieces. -/
def pySplitWs (s : String) : List String :=
  ((splitAtPred pyIsSpace s.data).filter (fun p => !p.isEmpty)).map
    (fun l => (⟨l⟩ : String))

/-- `" " in s`. -/
def containsSpace (s : String) : Bool := s.data.contains ' '

/-- The `frame_dto` branch of the DATE/TIME section:
`date_str, time_str = frame_dto.split()[:2]` when `frame_dto` is a string
containing a space — tuple unpacking raises `ValueError` when the
whitespace split yields fewer than two pieces. -/
def frameDtoPart (frame_dto : JVal) :
    Except PyErr (Option String × Option String) :=
  match frame_dto with
  | .str s =>
      if containsSpace s then
        match pySplitWs s with
        | a :: b :: _ => .ok (some a, some b)
        | _ => .error (.valueError "not enough values to unpack")
      else .ok (none, none)
  | _ => .ok (none, none)

/-- The `dto` fallback of the DATE/TIME section:
`date_str = dto.split()[0]` when no date was found yet and `dto` is a string
containing a space — `[0]` raises `IndexError` when the split is empty. -/
def dtoFallback (dt : Option String × Option String) (dto : JVal) :
    Except PyErr (Option String × Option String) :=
  if dt.1.isNone then
    match dto with
    | .str s =>
        if containsSpace s then
          match pySplitWs s with
          | a :: _ => .ok (some a, dt.2)
          | [] => .error .indexError
        else .ok dt
    | _ => .ok dt
  else .ok dt

/-- The full DATE/TIME section of `flatten_log_record`. -/
def dateTimePart (frame_dto dto : JVal) :
    Except PyErr (Option String × Option String) :=
  (frameDtoPart frame_dto).bind (fun dt => dtoFallback dt dto)

/-- The IMAGE section: derive `img_file` from the last `/`-component of a
string `img` field, and fall back to the folder prefix for the date when it
looks like `YYYY-MM-DD…`. -/
def imgPart (dateSoFar : Option String) (img_path : JVal) :
    Option String × Option String :=
  match img_path with
  | .str p =>
      let parts := splitOnChar '/' p.data
      let img_file : String := ⟨parts.getLastD p.data⟩
      let folder := parts.headD p.data
      let date :=
        if dateSoFar.isNone && decide (10 ≤ folder.length) &&
           (folder.getD 4 ' ' == '-') && (folder.getD 7 ' ' == '-') then
          some (String.mk (folder.take 10))
        else dateSoFar
      (some img_file, date)
  | _ => (none, dateSoFar)

/-- The INTERSECTION section: `intersection[i] if len(intersection) > i else
None` for `i = 0, 1`, after the `or []` normalization; `len`/indexing errors
propagate. -/
def interPart (v : JVal) : Except PyErr (JVal × JVal) := do
  let n ← pyLen v
  let i0 ← if 0 < n then pyIndex v 0 else pure JVal.null
  let i1 ← if 1 < n then pyIndex v 1 else pure JVal.null
  pure (i0, i1)

/-- The CROSS section: for rows `0` and `1`, when `len(cross) > row` and
`cross[row]` is a list, destructure its first two entries with `None` for
absent positions; all four cells default to `None`. -/
def crossRow (v : JVal) (row : Nat) : Except PyErr (JVal × JVal) := do
  let n ← pyLen v
  if row < n then
    let c ← pyIndex v row
    match c with
    | .arr l => pure (l.getD 0 .null, l.getD 1 .null)
    | _ => pure (JVal.null, JVal.null)
  else pure (JVal.null, JVal.null)

/-- The BOX section's normalization: `box = rec.get("box") or []` followed
by `if not isinstance(box, list): box = []`. -/
def boxListOf (v : JVal) : List JVal :=
  match pyOrEmpty v with
  | .arr l => l
  | _ => []

def optStr : Option String → JVal
  | some s => .str s
  | none => .null

/-- The fixed output schema of `flatten_log_record` (every CSV column). -/
structure FlatRecord where
  date : JVal
  time : JVal
  frame_dto : JVal
  dto : JVal
  img_path : JVal
  img_file : JVal
  dba : JVal
  dba_dto : JVal
  intersection_0 : JVal
  intersection_1 : JVal
  cross_0_0 : JVal
  cross_0_1 : JVal
  cross_1_0 : JVal
  cross_1_1 : JVal
  probs : JVal
  cls : JVal
  point_len : JVal
  box_x1 : JVal
  box_y1 : JVal
  box_x2 : JVal
  box_y2 : JVal
  tid : JVal
  seq_len : JVal
  seq_path : JVal
  log_file : String

/-- `parse_logs_to_csv.flatten_log_record`, section by section in source
order.  Exceptions escape to the caller (which counts them as per-line
errors). -/
def flatten_log_record (rec : List (String × JVal)) (log_file : String) :
    Except PyErr FlatRecord := do
  let dt ← dateTimePart (jget rec "frame_dto") (jget rec "dto")
  let inter ← interPart (pyOrEmpty (jget rec "intersection"))
  let c0 ← crossRow (pyOrEmpty (jget rec "cross")) 0
  let c1 ← crossRow (pyOrEmpty (jget rec "cross")) 1
  pure {
    date := optStr (imgPart dt.1 (jget rec "img")).2, time := optStr dt.2,
    frame_dto := jget rec "frame_dto", dto := jget rec "dto",
    img_path := jget rec "img",
    img_file := optStr (imgPart dt.1 (jget rec "img")).1,
    dba := jget rec "dba", dba_dto := jget rec "dba_dto",
    intersection_0 := inter.1, intersection_1 := inter.2,
    cross_0_0 := c0.1, cross_0_1 := c0.2,
    cross_1_0 := c1.1, cross_1_1 := c1.2,
    probs := jget rec "probs", cls := jget rec "cls",
    point_len := jget rec "point_len",
    box_x1 := (boxListOf (jget rec "box")).getD 0 .null,
    box_y1 := (boxListOf (jget rec "box")).getD 1 .null,
    box_x2 := (boxListOf (jget rec "box")).getD 2 .null,
    box_y2 := (boxListOf (jget rec "box")).getD 3 .null,
    tid := jget rec "tid", seq_len := jget rec "seq_len",
    seq_path := jget rec "seq_path", log_file := log_file }

/-! ## The log-parsing main loop (`parse_logs_to_csv.main`) -/

/-- Counters and the streamed output of the parsing run. -/
structure ParseStats where
  total_lines : Nat
  parsed : Nat
  errors : Nat
  written : List FlatRecord

/-- The guard `if args.max_lines and total_lines >= args.max_lines`:
`args.max_lines` is `None` by default or an `int`; a falsy value (`None` or
`0`) disables the cap, otherwise the numeric comparison decides. -/
def capReached (maxLines : Option Int) (total : Nat) : Bool :=
  match maxLines with
  | none => false
  | some m => m != 0 && decide (m ≤ (total : Int))

/-- One line's `try` body: `json.loads` (modelled by the abstract `parseJson`
parameter, `none` on malformed JSON) followed by `flatten_log_record`; any
exception from either is caught by the `except` clause and counted as an
error. -/
def processLine (parseJson : String → Option (List (String × JVal)))
    (lf line : String) : Option FlatRecord :=
  match parseJson line with
  | none => none
  | some rec =>
      match flatten_log_record rec lf with
      | .ok r => some r
      | .error _ => none

/-- The inner `for line in fin` loop of `main` over one log file.  The cap is
checked before the line counter is incremented; a hit executes `return`,
modelled by the `false` flag (the outer loop then stops as well).  Blank
lines are counted but skipped. -/
def runLines (parseJson : String → Option (List (String × JVal)))
    (maxLines : Option Int) (lf : String) :
    List String → ParseStats → ParseStats × Bool
  | [], st => (st, true)
  | line :: rest, st =>
      if capReached maxLines st.total_lines then (st, false)
      else
        let st1 : ParseStats := { st with total_lines := st.total_lines + 1 }
        if line.trim.isEmpty then runLines parseJson maxLines lf rest st1
        else
          match processLine parseJson lf line with
          | some r =>
              runLines parseJson maxLines lf rest
                { st1 with parsed := st1.parsed + 1, written := st1.written ++ [r] }
          | none =>
              runLines parseJson maxLines lf rest
                { st1 with errors := st1.errors + 1 }

/-- The outer `for lf in log_files` loop: each file's lines are consumed in
order; an early `return` from the cap ends the whole run. -/
def runFiles (parseJson : String → Option (List (String × JVal)))
    (maxLines : Option Int) :
    List (String × List String) → ParseStats → ParseStats
  | [], st => st
  | (lf, lines) :: rest, st =>
      match runLines parseJson maxLines lf lines st with
      | (st1, true) => runFiles parseJson maxLines rest st1
      | (st1, false) => st1

/-- `parse_logs_to_csv.main`: `sys.exit(1)` when no `traffic.txt*` files are
found, otherwise run the loop from zeroed counters (the CSV header is
written first; rows are streamed as they parse). -/
def parse_logs_main (parseJson : String → Option (List (String × JVal)))
    (files : List (String × List String)) (maxLines : Option Int) :
    Except PyErr ParseStats :=
  if files.isEmpty then .error (.systemExit 1)
  else .ok (runFiles parseJson maxLines files ⟨0, 0, 0, []⟩)

/-- Total number of physical lines across the given log files. -/
def totalLineCount (files : List (String × List String)) : Nat :=
  (files.map (fun p => p.2.length)).sum

/-! ## Statement-level predicates and concrete records -/

/-- Some row of `t` carries the (non-null) date `d`. -/
def HasDate (t : List MetricRow) (d : Nat) : Prop := ∃ r ∈ t, r.date = some d

/-- A timestamp field is benign for the `frame_dto` unpacking: when it is a
string containing a space, its whitespace split has at least two pieces. -/
def tsOkTwo (v : JVal) : Prop :=
  ∀ s, v = .str s → containsSpace s = true → 2 ≤ (pySplitWs s).length

/-- A timestamp field is benign for the `dto` fallback: when it is a string
containing a space, its whitespace split is non-empty. -/
def tsOkOne (v : JVal) : Prop :=
  ∀ s, v = .str s → containsSpace s = true → 1 ≤ (pySplitWs s).length

/-- Whether a JSON value is an array. -/
def isArrJ : JVal → Bool
  | .arr _ => true
  | _ => false

/-- The element list of an array value (`[]` otherwise). -/
def toArr : JVal → List JVal
  | .arr l => l
  | _ => []

/-- The expected content of the cross cell `(row, idx)`: the entry of the
inner list when the outer list has a list at `row` and the inner list is
long enough, `null` otherwise. -/
def crossCell (l : List JVal) (row idx : Nat) : JVal :=
  if row < l.length then
    match l.getD row .null with
    | .arr li => li.getD idx .null
    | _ => .null
  else .null

/-- The example log line of the spec:
`{"dto": "2024-06-01 10:00:00", "probs": 0.9, "box": [1,2,3,4]}`. -/
def exampleLogRec : List (String × JVal) :=
  [("dto", .str "2024-06-01 10:00:00"), ("probs", .num 0.9),
   ("box", .arr [.num 1, .num 2, .num 3, .num 4])]

/-- The flat record the example log line maps to. -/
def exampleFlat : FlatRecord :=
  { date := .str "2024-06-01", time := .null, frame_dto := .null,
    dto := .str "2024-06-01 10:00:00", img_path := .null, img_file := .null,
    dba := .null, dba_dto := .null, intersection_0 := .null,
    intersection_1 := .null, cross_0_0 := .null, cross_0_1 := .null,
    cross_1_0 := .null, cross_1_1 := .null, probs := .num 0.9, cls := .null,
    point_len := .null, box_x1 := .num 1, box_y1 := .num 2,
    box_x2 := .num 3, box_y2 := .num 4, tid := .null, seq_len := .null,
    seq_path := .null, log_file := "traffic.txt.1" }

/-! # Theorems -/

/-- **C9.**  For every audio record's sample list, when the computed RMS is
zero the crest-factor field is null (no division is performed and no
infinity produced), and when the RMS is positive the crest factor equals
`peak / rms`. -/
theorem crest_factor_safe (y : List ℚ) :
    (rms y = 0 → crest_factor y = none) ∧
    (0 < rms y → crest_factor y = some ((peak_amplitude y : ℝ) / rms y)) := by
  constructor
  · intro h
    simp only [crest_factor]
    rw [if_neg]
    rw [h]
    exact lt_irrefl 0
  · intro h
    simp only [crest_factor]
    rw [if_pos h]

/-- Witness for C9: a silent one-sample record gets a null crest factor, and
a record with sample `2` gets `peak / rms`. -/
theorem crest_factor_safe_witness :
    crest_factor [(0 : ℚ)] = none ∧
    crest_factor [(2 : ℚ)] =
      some ((peak_amplitude [(2 : ℚ)] : ℝ) / rms [(2 : ℚ)]) := by
  constructor
  · exact (crest_factor_safe [0]).1 (by
      simp [rms, rmsSq, sumSquares])
  · refine (crest_factor_safe [2]).2 ?_
    simp only [rms, Real.sqrt_pos]
    norm_num [rmsSq, sumSquares]

/-- **C7.**  Left-joining a primary daily table with distinct dates
`d1, d2, d3` against a secondary table holding `d1, d3` (with non-null
`n_events`) yields exactly three rows, with `sensor_missing` true exactly on
the `d2` row. -/
theorem left_join_sensor_missing
    (d1 d2 d3 n1 n2 n3 : Nat) (e1 e3 : ℚ)
    (h12 : d1 ≠ d2) (h13 : d1 ≠ d3) (h23 : d2 ≠ d3) :
    joinAudioSensor [⟨d1, n1⟩, ⟨d2, n2⟩, ⟨d3, n3⟩]
        [⟨d1, some e1⟩, ⟨d3, some e3⟩] =
      [⟨d1, n1, some e1, false, true⟩,
       ⟨d2, n2, none, true, false⟩,
       ⟨d3, n3, some e3, false, true⟩] ∧
    (joinAudioSensor [⟨d1, n1⟩, ⟨d2, n2⟩, ⟨d3, n3⟩]
        [⟨d1, some e1⟩, ⟨d3, some e3⟩]).length = 3 := by
  have b11 : (d1 == d1) = true := by simp
  have b12 : (d1 == d2) = false := by simp [h12]
  have b32 : (d3 == d2) = false := by simp [Ne.symm h23]
  have b13 : (d1 == d3) = false := by simp [h13]
  have b33 : (d3 == d3) = true := by simp
  constructor
  · simp [joinAudioSensor, List.find?, b11, b12, b32, b13, b33, Option.isNone]
  · simp [joinAudioSensor]

/-- Witness for C7 at concrete dates `1, 2, 3`. -/
theorem left_join_sensor_missing_witness :
    joinAudioSensor [⟨1, 5⟩, ⟨2, 6⟩, ⟨3, 7⟩]
        [⟨1, some 11⟩, ⟨3, some 13⟩] =
      [⟨1, 5, some 11, false, true⟩,
       ⟨2, 6, none, true, false⟩,
       ⟨3, 7, some 13, false, true⟩] ∧
    (joinAudioSensor [⟨1, 5⟩, ⟨2, 6⟩, ⟨3, 7⟩]
        [⟨1, some 11⟩, ⟨3, some 13⟩]).length = 3 :=
  left_join_sensor_missing 1 2 3 5 6 7 11 13
    (by decide) (by decide) (by decide)

/-- **C3, counterexample.**  The Folder Scanner does *not* fail when the
root directory it is given is missing: `os.listdir`'s `FileNotFoundError` is
caught inside `list_candidate_folders`, which returns the empty list, and
`scan_modality_root` then returns two empty lists — the run continues with
no error. -/
theorem folder_scanner_missing_root_returns_empty :
    list_candidate_folders
        ⟨fun _ => none, fun _ => false, fun _ => (0, 0)⟩ "/missing/root" = [] ∧
    scan_modality_root
        ⟨fun _ => none, fun _ => false, fun _ => (0, 0)⟩ "/missing/root" "image" =
      ([], []) :=
  ⟨rfl, rfl⟩

/-- **C3, amended.**  A missing required *file* input is fatal before any
processing: `daily_join.load_csv` raises `FileNotFoundError`, and the daily
aggregation scripts raise `FileNotFoundError` on a missing input CSV.  The
Folder Scanner, however, silently returns empty lists when its root
directory is missing. -/
theorem input_missing_behavior
    (files : String → Option CsvFile) (path : String)
    (hmiss : files path = none) (inputName : String)
    (fs : FS) (root : String) (hroot : fs.listdir root = none)
    (modality : String) :
    load_csv files path = .error (.fileNotFound ("Missing file: " ++ path)) ∧
    daily_main none inputName =
      .error (.fileNotFound ("Missing input file: " ++ inputName)) ∧
    list_candidate_folders fs root = [] ∧
    scan_modality_root fs root modality = ([], []) := by
  refine ⟨?_, rfl, ?_, ?_⟩
  · simp [load_csv, hmiss]
  · simp [list_candidate_folders, hroot]
  · simp [scan_modality_root, list_candidate_folders, hroot, scanFolders]

/-- Witness for the amended C3 at a concrete empty filesystem. -/
theorem input_missing_behavior_witness :
    load_csv (fun _ => none) "results/daily_counts.csv" =
      .error (.fileNotFound "Missing file: results/daily_counts.csv") ∧
    daily_main none "audio_quality.csv" =
      .error (.fileNotFound "Missing input file: audio_quality.csv") ∧
    list_candidate_folders
        ⟨fun _ => none, fun _ => true, fun _ => (0, 0)⟩ "/traffic/snd" = [] ∧
    scan_modality_root
        ⟨fun _ => none, fun _ => true, fun _ => (0, 0)⟩ "/traffic/snd" "audio" =
      ([], []) := by
  have h := input_missing_behavior (fun _ => none) "results/daily_counts.csv"
    rfl "audio_quality.csv" ⟨fun _ => none, fun _ => true, fun _ => (0, 0)⟩
    "/traffic/snd" rfl "audio"
  simpa using h

/-! ### The `--max-lines` cap (C10) -/

theorem capReached_falsy (maxLines : Option Int) (t : Nat)
    (h : maxLines = none ∨ maxLines = some 0) : capReached maxLines t = false := by
  rcases h with h | h <;> simp [capReached, h]

theorem capReached_pos (N : Int) (hN : 0 < N) (t : Nat) :
    capReached (some N) t = decide (N.toNat ≤ t) := by
  have hne : N ≠ 0 := ne_of_gt hN
  simp [capReached, hne, decide_eq_decide, Int.toNat_le]

theorem runLines_uncapped (pj : String → Option (List (String × JVal)))
    (maxLines : Option Int) (lf : String)
    (hcap : ∀ t, capReached maxLines t = false) :
    ∀ (lines : List String) (st : ParseStats),
      (runLines pj maxLines lf lines st).2 = true ∧
      (runLines pj maxLines lf lines st).1.total_lines =
        st.total_lines + lines.length := by
  intro lines
  induction lines with
  | nil => intro st; simp [runLines]
  | cons l rest ih =>
    intro st
    rw [runLines]
    rw [hcap]
    simp only [Bool.false_eq_true, if_false]
    by_cases hb : l.trim.isEmpty
    · simp only [hb, if_true]
      refine ⟨(ih _).1, ?_⟩
      rw [(ih _).2]
      simp only [List.length_cons]
      omega
    · simp only [hb, Bool.false_eq_true, if_false]
      cases hp : processLine pj lf l with
      | some r =>
        refine ⟨(ih _).1, ?_⟩
        rw [(ih _).2]
        simp only [List.length_cons]
        omega
      | none =>
        refine ⟨(ih _).1, ?_⟩
        rw [(ih _).2]
        simp only [List.length_cons]
        omega

theorem runFiles_uncapped (pj : String → Option (List (String × JVal)))
    (maxLines : Option Int)
    (hcap : ∀ t, capReached maxLines t = false) :
    ∀ (files : List (String × List String)) (st : ParseStats),
      (runFiles pj maxLines files st).total_lines =
        st.total_lines + totalLineCount files := by
  intro files
  induction files with
  | nil => intro st; simp [runFiles, totalLineCount]
  | cons f rest ih =>
    intro st
    rw [runFiles]
    rcases hrl : runLines pj maxLines f.1 f.2 st with ⟨st1, flag⟩
    have h := runLines_uncapped pj maxLines f.1 hcap f.2 st
    rw [hrl] at h
    rcases h with ⟨hflag, htot⟩
    simp only at hflag htot
    subst hflag
    simp only []
    rw [ih st1, htot]
    simp [totalLineCount]
    omega

theorem runLines_capped (pj : String → Option (List (String × JVal)))
    (N : Int) (hN : 0 < N) (lf : String) :
    ∀ (lines : List String) (st : ParseStats), st.total_lines ≤ N.toNat →
      (runLines pj (some N) lf lines st).1.total_lines =
        min N.toNat (st.total_lines + lines.length) ∧
      ((runLines pj (some N) lf lines st).2 = true →
        (runLines pj (some N) lf lines st).1.total_lines =
          st.total_lines + lines.length) ∧
      ((runLines pj (some N) lf lines st).2 = false →
        (runLines pj (some N) lf lines st).1.total_lines = N.toNat) := by
  intro lines
  induction lines with
  | nil =>
    intro st hst
    refine ⟨?_, fun _ => by simp [runLines], fun h => by simp [runLines] at h⟩
    simp only [runLines, List.length_nil, Nat.add_zero]
    omega
  | cons l rest ih =>
    intro st hst
    rw [runLines]
    rw [capReached_pos N hN]
    by_cases hhit : N.toNat ≤ st.total_lines
    · have hEq : st.total_lines = N.toNat := le_antisymm hst hhit
      rw [if_pos (by simpa using hhit)]
      refine ⟨?_, ?_, fun _ => hEq⟩
      · simp only [List.length_cons]
        omega
      · intro hcontr
        exact absurd hcontr (by simp)
    · rw [if_neg (by simpa using hhit)]
      have hst1 : st.total_lines + 1 ≤ N.toNat := by omega
      by_cases hb : l.trim.isEmpty = true
      · rw [if_pos hb]
        obtain ⟨h1, h2, h3⟩ := ih { st with total_lines := st.total_lines + 1 } hst1
        refine ⟨?_, ?_, h3⟩
        · rw [h1]; simp only [List.length_cons]; omega
        · intro hf; rw [h2 hf]; simp only [List.length_cons]; omega
      · rw [if_neg hb]
        cases hp : processLine pj lf l with
        | some r =>
          simp only [hp]
          obtain ⟨h1, h2, h3⟩ := ih
            { total_lines := st.total_lines + 1, parsed := st.parsed + 1,
              errors := st.errors, written := st.written ++ [r] } hst1
          refine ⟨?_, ?_, h3⟩
          · rw [h1]; simp only [List.length_cons]; omega
          · intro hf; rw [h2 hf]; simp only [List.length_cons]; omega
        | none =>
          simp only [hp]
          obtain ⟨h1, h2, h3⟩ := ih
            { total_lines := st.total_lines + 1, parsed := st.parsed,
              errors := st.errors + 1, written := st.written } hst1
          refine ⟨?_, ?_, h3⟩
          · rw [h1]; simp only [List.length_cons]; omega
          · intro hf; rw [h2 hf]; simp only [List.length_cons]; omega

theorem runFiles_capped (pj : String → Option (List (String × JVal)))
    (N : Int) (hN : 0 < N) :
    ∀ (files : List (String × List String)) (st : ParseStats),
      st.total_lines ≤ N.toNat →
      (runFiles pj (some N) files st).total_lines =
        min N.toNat (st.total_lines + totalLineCount files) := by
  intro files
  induction files with
  | nil =>
    intro st hst
    simp only [runFiles, totalLineCount, List.map_nil, List.sum_nil, Nat.add_zero]
    omega
  | cons f rest ih =>
    intro st hst
    rw [runFiles]
    rcases hrl : runLines pj (some N) f.1 f.2 st with ⟨st1, flag⟩
    have h := runLines_capped pj N hN f.1 f.2 st hst
    rw [hrl] at h
    rcases h with ⟨h1, h2, h3⟩
    simp only at h1 h2 h3
    have htc : totalLineCount (f :: rest) = f.2.length + totalLineCount rest := by
      simp [totalLineCount]
    cases flag with
    | true =>
      simp only []
      have hst1le : st1.total_lines ≤ N.toNat := by rw [h1]; omega
      rw [ih st1 hst1le, h2 rfl, htc]
      omega
    | false =>
      simp only []
      rw [h3 rfl, htc]
      have : N.toNat ≤ st.total_lines + f.2.length := by
        have := h1
        rw [h3 rfl] at this
        omega
      omega

/-- **C10.**  In the log parser, `--max-lines 0` disables the cap entirely —
every line of every log file is consumed — while any positive `N` stops the
run as soon as `N` lines have been read (so the number of lines read is
`min N (total lines)`). -/
theorem max_lines_semantics (pj : String → Option (List (String × JVal)))
    (files : List (String × List String)) (hne : files ≠ [])
    (N : Int) (hN : 0 < N) :
    parse_logs_main pj files (some 0) =
      .ok (runFiles pj (some 0) files ⟨0, 0, 0, []⟩) ∧
    (runFiles pj (some 0) files ⟨0, 0, 0, []⟩).total_lines =
      totalLineCount files ∧
    parse_logs_main pj files (some N) =
      .ok (runFiles pj (some N) files ⟨0, 0, 0, []⟩) ∧
    (runFiles pj (some N) files ⟨0, 0, 0, []⟩).total_lines =
      min N.toNat (totalLineCount files) := by
  have hfe : files.isEmpty = false := by
    cases files with
    | nil => exact absurd rfl hne
    | cons a l => rfl
  refine ⟨?_, ?_, ?_, ?_⟩
  · simp [parse_logs_main, hfe]
  · have := runFiles_uncapped pj (some 0)
      (fun t => capReached_falsy (some 0) t (Or.inr rfl)) files ⟨0, 0, 0, []⟩
    simpa using this
  · simp [parse_logs_main, hfe]
  · have := runFiles_capped pj N hN files ⟨0, 0, 0, []⟩ (by simp)
    simpa using this

/-- Witness for C10: two log files with three lines total, `N = 2`. -/
theorem max_lines_semantics_witness :
    parse_logs_main (fun _ => none) [("traffic.txt.1", ["a", "b"]), ("traffic.txt.2", ["c"])] (some 0) =
      .ok (runFiles (fun _ => none) (some 0)
        [("traffic.txt.1", ["a", "b"]), ("traffic.txt.2", ["c"])] ⟨0, 0, 0, []⟩) ∧
    (runFiles (fun _ => none) (some 0)
      [("traffic.txt.1", ["a", "b"]), ("traffic.txt.2", ["c"])] ⟨0, 0, 0, []⟩).total_lines =
      totalLineCount [("traffic.txt.1", ["a", "b"]), ("traffic.txt.2", ["c"])] ∧
    parse_logs_main (fun _ => none) [("traffic.txt.1", ["a", "b"]), ("traffic.txt.2", ["c"])] (some 2) =
      .ok (runFiles (fun _ => none) (some 2)
        [("traffic.txt.1", ["a", "b"]), ("traffic.txt.2", ["c"])] ⟨0, 0, 0, []⟩) ∧
    (runFiles (fun _ => none) (some 2)
      [("traffic.txt.1", ["a", "b"]), ("traffic.txt.2", ["c"])] ⟨0, 0, 0, []⟩).total_lines =
      min (2 : Int).toNat
        (totalLineCount [("traffic.txt.1", ["a", "b"]), ("traffic.txt.2", ["c"])]) :=
  max_lines_semantics (fun _ => none)
    [("traffic.txt.1", ["a", "b"]), ("traffic.txt.2", ["c"])]
    (by simp) 2 (by norm_num)

/-! ### Folder-name validation (C5, C2) -/

/-- **C5, counterexample.**  `is_valid_folder_name` does not reject every
string outside the three stated shapes: Python's `$` anchor also matches
just before a trailing newline, so `"2023-10-21\n"` — not of the form
`YYYY-MM-DD[_h|_l]` — is accepted. -/
theorem folder_name_trailing_newline_counterexample :
    is_valid_folder_name "2023-10-21\n" = true ∧
    specFolderName "2023-10-21\n" = false := by
  constructor
  · decide
  · decide

/-- **C5, amended.**  `is_valid_folder_name` accepts exactly the strings of
the form `YYYY-MM-DD`, `YYYY-MM-DD_h` or `YYYY-MM-DD_l` — optionally
followed by one trailing newline (Python's `$` matches before it); in
particular it accepts `"2023-13-01"` (real-date validity is checked
separately) and rejects `"20230101"`. -/
theorem is_valid_folder_name_characterization :
    (∀ s : String, is_valid_folder_name s = true ↔
      (specFolderName s = true ∨
        ∃ t : String, specFolderName t = true ∧ s = t ++ "\n")) ∧
    is_valid_folder_name "2023-13-01" = true ∧
    is_valid_folder_name "20230101" = false := by
  refine ⟨?_, by decide, by decide⟩
  intro s
  unfold is_valid_folder_name specFolderName
  rw [Bool.or_eq_true, Bool.and_eq_true]
  constructor
  · rintro (h | ⟨hl, hc⟩)
    · exact Or.inl h
    · right
      rw [beq_iff_eq] at hl
      have hne : s.data ≠ [] := by
        intro h0
        rw [h0] at hl
        exact Option.noConfusion hl
      refine ⟨⟨s.data.dropLast⟩, hc, ?_⟩
      apply String.ext
      show s.data = (⟨s.data.dropLast⟩ : String).data ++ ("\n" : String).data
      have hlast : s.data.getLast hne = '\n' := by
        have := List.getLast?_eq_getLast s.data hne
        rw [this] at hl
        exact Option.some_injective _ hl
      calc s.data = s.data.dropLast ++ [s.data.getLast hne] :=
              (List.dropLast_append_getLast hne).symm
        _ = s.data.dropLast ++ ['\n'] := by rw [hlast]
  · rintro (h | ⟨t, ht, rfl⟩)
    · exact Or.inl h
    · right
      have hd : (t ++ "\n").data = t.data ++ ['\n'] := rfl
      constructor
      · rw [beq_iff_eq, hd]
        exact List.getLast?_concat t.data
      · rw [hd, List.dropLast_concat]
        exact ht

theorem mem_insertSorted (x a : String) (l : List String) :
    a ∈ insertSorted x l ↔ a = x ∨ a ∈ l := by
  induction l with
  | nil => simp [insertSorted]
  | cons y ys ih =>
    rw [insertSorted]
    by_cases h : x ≤ y
    · rw [if_pos h]
      simp [List.mem_cons]
    · rw [if_neg h]
      simp only [List.mem_cons, ih]
      tauto

theorem length_insertSorted (x : String) (l : List String) :
    (insertSorted x l).length = l.length + 1 := by
  induction l with
  | nil => rfl
  | cons y ys ih =>
    rw [insertSorted]
    by_cases h : x ≤ y
    · rw [if_pos h]
      rfl
    · rw [if_neg h]
      simp [ih]

theorem mem_sortStrings (a : String) (l : List String) :
    a ∈ sortStrings l ↔ a ∈ l := by
  induction l with
  | nil => simp [sortStrings]
  | cons x xs ih =>
    show a ∈ insertSorted x (sortStrings xs) ↔ _
    rw [mem_insertSorted]
    simp [ih]

theorem length_sortStrings (l : List String) :
    (sortStrings l).length = l.length := by
  induction l with
  | nil => rfl
  | cons x xs ih =>
    show (insertSorted x (sortStrings xs)).length = _
    rw [length_insertSorted, ih]
    rfl

theorem mem_list_candidate_folders (fs : FS) (root name : String)
    (entries : List String) (h : fs.listdir root = some entries) :
    name ∈ list_candidate_folders fs root ↔
      name ∈ entries ∧ is_valid_folder_name name = true ∧
        fs.isdir (pathJoin root name) = true := by
  simp [list_candidate_folders, h, mem_sortStrings, List.mem_filter,
    Bool.and_eq_true, and_assoc]

theorem scanFolders_length (fs : FS) (root modality : String) (l : List String) :
    (scanFolders fs root modality l).1.length +
      (scanFolders fs root modality l).2.length = l.length := by
  induction l with
  | nil => rfl
  | cons folder rest ih =>
    rw [scanFolders]
    by_cases h : is_valid_date (parse_folder_name folder).1 = true
    · rw [if_pos h]
      simp only [List.length_cons]
      omega
    · rw [if_neg h]
      simp only [List.length_cons]
      omega

theorem scanFolders_mem_valid (fs : FS) (root modality : String)
    (l : List String) (folder : String) (hm : folder ∈ l)
    (hv : is_valid_date (parse_folder_name folder).1 = true) :
    validRecordOf fs root modality folder ∈ (scanFolders fs root modality l).1 := by
  induction l with
  | nil => cases hm
  | cons f rest ih =>
    rw [scanFolders]
    rcases List.mem_cons.mp hm with rfl | hm'
    · rw [if_pos hv]
      exact List.mem_cons_self _ _
    · by_cases h : is_valid_date (parse_folder_name f).1 = true
      · rw [if_pos h]
        exact List.mem_cons_of_mem _ (ih hm')
      · rw [if_neg h]
        exact ih hm'

theorem scanFolders_mem_invalid (fs : FS) (root modality : String)
    (l : List String) (folder : String) (hm : folder ∈ l)
    (hv : is_valid_date (parse_folder_name folder).1 = false) :
    invalidRecordOf fs root modality folder ∈ (scanFolders fs root modality l).2 := by
  induction l with
  | nil => cases hm
  | cons f rest ih =>
    rw [scanFolders]
    rcases List.mem_cons.mp hm with rfl | hm'
    · rw [if_neg (by simp [hv])]
      exact List.mem_cons_self _ _
    · by_cases h : is_valid_date (parse_folder_name f).1 = true
      · rw [if_pos h]
        exact ih hm'
      · rw [if_neg h]
        exact List.mem_cons_of_mem _ (ih hm')

theorem scanFolders_valid_src (fs : FS) (root modality : String)
    (l : List String) (r : ValidRecord)
    (hr : r ∈ (scanFolders fs root modality l).1) :
    ∃ folder, folder ∈ l ∧ is_valid_date (parse_folder_name folder).1 = true ∧
      r = validRecordOf fs root modality folder := by
  induction l with
  | nil => cases hr
  | cons f rest ih =>
    rw [scanFolders] at hr
    by_cases h : is_valid_date (parse_folder_name f).1 = true
    · rw [if_pos h] at hr
      rcases List.mem_cons.mp hr with rfl | hr'
      · exact ⟨f, List.mem_cons_self _ _, h, rfl⟩
      · obtain ⟨g, hg, hgv, hge⟩ := ih hr'
        exact ⟨g, List.mem_cons_of_mem _ hg, hgv, hge⟩
    · rw [if_neg h] at hr
      obtain ⟨g, hg, hgv, hge⟩ := ih hr
      exact ⟨g, List.mem_cons_of_mem _ hg, hgv, hge⟩

theorem scanFolders_invalid_src (fs : FS) (root modality : String)
    (l : List String) (r : InvalidRecord)
    (hr : r ∈ (scanFolders fs root modality l).2) :
    ∃ folder, folder ∈ l ∧ is_valid_date (parse_folder_name folder).1 = false ∧
      r = invalidRecordOf fs root modality folder := by
  induction l with
  | nil => cases hr
  | cons f rest ih =>
    rw [scanFolders] at hr
    by_cases h : is_valid_date (parse_folder_name f).1 = true
    · rw [if_pos h] at hr
      obtain ⟨g, hg, hgv, hge⟩ := ih hr
      exact ⟨g, List.mem_cons_of_mem _ hg, hgv, hge⟩
    · rw [if_neg h] at hr
      rcases List.mem_cons.mp hr with rfl | hr'
      · exact ⟨f, List.mem_cons_self _ _, by simpa using h, rfl⟩
      · obtain ⟨g, hg, hgv, hge⟩ := ih hr'
        exact ⟨g, List.mem_cons_of_mem _ hg, hgv, hge⟩

/-- **C2.**  The Folder Scanner routes every directory entry that matches
the folder-name pattern into exactly one of its two output lists — the valid
list precisely when `is_valid_date` accepts the date part (a real calendar
date with year in the configured range), the invalid list (with reason code
`"invalid_year_or_bad_date"`) otherwise — and entries that do not match the
pattern appear in neither list (every output record stems from a matching
entry). -/
theorem scan_modality_root_partition
    (fs : FS) (root modality : String) (entries : List String)
    (hdir : fs.listdir root = some entries) :
    (∀ name, name ∈ entries →
      is_valid_folder_name name = true →
      fs.isdir (pathJoin root name) = true →
      ((is_valid_date (parse_folder_name name).1 = true →
          validRecordOf fs root modality name ∈
            (scan_modality_root fs root modality).1) ∧
       (is_valid_date (parse_folder_name name).1 = false →
          invalidRecordOf fs root modality name ∈
            (scan_modality_root fs root modality).2))) ∧
    (scan_modality_root fs root modality).1.length +
        (scan_modality_root fs root modality).2.length =
      (list_candidate_folders fs root).length ∧
    (∀ r, r ∈ (scan_modality_root fs root modality).1 →
      ∃ name, name ∈ entries ∧ is_valid_folder_name name = true ∧
        fs.isdir (pathJoin root name) = true ∧
        is_valid_date (parse_folder_name name).1 = true ∧
        r = validRecordOf fs root modality name) ∧
    (∀ r, r ∈ (scan_modality_root fs root modality).2 →
      ∃ name, name ∈ entries ∧ is_valid_folder_name name = true ∧
        fs.isdir (pathJoin root name) = true ∧
        is_valid_date (parse_folder_name name).1 = false ∧
        r = invalidRecordOf fs root modality name ∧
        r.reason = "invalid_year_or_bad_date") := by
  refine ⟨?_, scanFolders_length fs root modality _, ?_, ?_⟩
  · intro name hmem hpat hisdir
    have hcand : name ∈ list_candidate_folders fs root :=
      (mem_list_candidate_folders fs root name entries hdir).mpr ⟨hmem, hpat, hisdir⟩
    exact ⟨fun hv => scanFolders_mem_valid fs root modality _ name hcand hv,
           fun hv => scanFolders_mem_invalid fs root modality _ name hcand hv⟩
  · intro r hr
    obtain ⟨name, hname, hval, heq⟩ := scanFolders_valid_src fs root modality _ r hr
    obtain ⟨hmem, hpat, hisdir⟩ :=
      (mem_list_candidate_folders fs root name entries hdir).mp hname
    exact ⟨name, hmem, hpat, hisdir, hval, heq⟩
  · intro r hr
    obtain ⟨name, hname, hval, heq⟩ := scanFolders_invalid_src fs root modality _ r hr
    obtain ⟨hmem, hpat, hisdir⟩ :=
      (mem_list_candidate_folders fs root name entries hdir).mp hname
    exact ⟨name, hmem, hpat, hisdir, hval, heq, by rw [heq]; rfl⟩

/-- Witness for C2 on a concrete root holding a valid folder, an
out-of-range year, a non-matching name, and an unreal date. -/
theorem scan_modality_root_partition_witness :
    validRecordOf
        ⟨fun _ => some ["2023-10-21", "2021-05-01", "nope", "2023-13-01"],
         fun _ => true, fun _ => (3, 100)⟩ "/r" "image" "2023-10-21" ∈
      (scan_modality_root
        ⟨fun _ => some ["2023-10-21", "2021-05-01", "nope", "2023-13-01"],
         fun _ => true, fun _ => (3, 100)⟩ "/r" "image").1 ∧
    invalidRecordOf
        ⟨fun _ => some ["2023-10-21", "2021-05-01", "nope", "2023-13-01"],
         fun _ => true, fun _ => (3, 100)⟩ "/r" "image" "2023-13-01" ∈
      (scan_modality_root
        ⟨fun _ => some ["2023-10-21", "2021-05-01", "nope", "2023-13-01"],
         fun _ => true, fun _ => (3, 100)⟩ "/r" "image").2 ∧
    (scan_modality_root
        ⟨fun _ => some ["2023-10-21", "2021-05-01", "nope", "2023-13-01"],
         fun _ => true, fun _ => (3, 100)⟩ "/r" "image").1.length +
      (scan_modality_root
        ⟨fun _ => some ["2023-10-21", "2021-05-01", "nope", "2023-13-01"],
         fun _ => true, fun _ => (3, 100)⟩ "/r" "image").2.length =
      (list_candidate_folders
        ⟨fun _ => some ["2023-10-21", "2021-05-01", "nope", "2023-13-01"],
         fun _ => true, fun _ => (3, 100)⟩ "/r").length := by
  have h := scan_modality_root_partition
    ⟨fun _ => some ["2023-10-21", "2021-05-01", "nope", "2023-13-01"],
     fun _ => true, fun _ => (3, 100)⟩ "/r" "image"
    ["2023-10-21", "2021-05-01", "nope", "2023-13-01"] rfl
  refine ⟨?_, ?_, h.2.1⟩
  · exact ((h.1 "2023-10-21" (by decide) (by decide) rfl).1) (by decide)
  · exact ((h.1 "2023-13-01" (by decide) (by decide) rfl).2) (by decide)

/-! ### Daily aggregation (C1, C8) -/

theorem mem_insertDate (a d : Nat) (l : List Nat) :
    a ∈ insertDate d l ↔ a = d ∨ a ∈ l := by
  induction l with
  | nil => simp [insertDate]
  | cons x xs ih =>
    rw [insertDate]
    by_cases h1 : d < x
    · rw [if_pos h1]
      simp only [List.mem_cons]
    · rw [if_neg h1]
      by_cases h2 : d = x
      · rw [if_pos h2]
        subst h2
        simp only [List.mem_cons]
        tauto
      · rw [if_neg h2]
        simp only [List.mem_cons, ih]
        tauto

theorem insertDate_pairwise (d : Nat) (l : List Nat)
    (h : l.Pairwise (· < ·)) : (insertDate d l).Pairwise (· < ·) := by
  induction l with
  | nil => simp [insertDate]
  | cons x xs ih =>
    rw [List.pairwise_cons] at h
    obtain ⟨hx, hxs⟩ := h
    rw [insertDate]
    by_cases h1 : d < x
    · rw [if_pos h1]
      rw [List.pairwise_cons]
      refine ⟨?_, ?_⟩
      · intro b hb
        rcases List.mem_cons.mp hb with rfl | hb'
        · exact h1
        · exact lt_trans h1 (hx b hb')
      · rw [List.pairwise_cons]
        exact ⟨hx, hxs⟩
    · rw [if_neg h1]
      by_cases h2 : d = x
      · rw [if_pos h2]
        rw [List.pairwise_cons]
        exact ⟨hx, hxs⟩
      · rw [if_neg h2]
        rw [List.pairwise_cons]
        refine ⟨?_, ih hxs⟩
        intro b hb
        rcases (mem_insertDate b d xs).mp hb with rfl | hb'
        · omega
        · exact hx b hb'

theorem datesOf_pairwise (t : List MetricRow) :
    (datesOf t).Pairwise (· < ·) := by
  induction t with
  | nil => simp [datesOf]
  | cons r rest ih =>
    show (match r.date with
      | some d => insertDate d (datesOf rest)
      | none => datesOf rest).Pairwise (· < ·)
    cases r.date with
    | none => exact ih
    | some d => exact insertDate_pairwise d _ ih

theorem datesOf_nodup (t : List MetricRow) : (datesOf t).Nodup :=
  (datesOf_pairwise t).imp (fun h => Nat.ne_of_lt h)

theorem mem_datesOf (t : List MetricRow) (d : Nat) :
    d ∈ datesOf t ↔ ∃ r ∈ t, r.date = some d := by
  induction t with
  | nil => simp [datesOf]
  | cons r rest ih =>
    have hshape : datesOf (r :: rest) =
        (match r.date with
          | some d0 => insertDate d0 (datesOf rest)
          | none => datesOf rest) := rfl
    rw [hshape]
    cases hr : r.date with
    | none =>
      rw [ih]
      constructor
      · rintro ⟨r', hr', hd⟩
        exact ⟨r', List.mem_cons_of_mem _ hr', hd⟩
      · rintro ⟨r', hr', hd⟩
        rcases List.mem_cons.mp hr' with rfl | hmem
        · rw [hr] at hd
          cases hd
        · exact ⟨r', hmem, hd⟩
    | some d0 =>
      rw [mem_insertDate, ih]
      constructor
      · rintro (rfl | ⟨r', hr', hd⟩)
        · exact ⟨r, List.mem_cons_self _ _, hr⟩
        · exact ⟨r', List.mem_cons_of_mem _ hr', hd⟩
      · rintro ⟨r', hr', hd⟩
        rcases List.mem_cons.mp hr' with rfl | hmem
        · rw [hr] at hd
          exact Or.inl (Option.some_injective _ hd).symm
        · exact Or.inr ⟨r', hmem, hd⟩

theorem sum_map_add {α : Type} (l : List α) (f g : α → Nat) :
    (l.map (fun x => f x + g x)).sum = (l.map f).sum + (l.map g).sum := by
  induction l with
  | nil => rfl
  | cons x xs ih =>
    simp only [List.map_cons, List.sum_cons, ih]
    omega

theorem sum_indicator (l : List Nat) (d0 : Nat) (hnd : l.Nodup) (hm : d0 ∈ l) :
    (l.map (fun d => if d0 = d then 1 else 0)).sum = 1 := by
  induction l with
  | nil => cases hm
  | cons x xs ih =>
    rw [List.nodup_cons] at hnd
    obtain ⟨hx, hxs⟩ := hnd
    simp only [List.map_cons, List.sum_cons]
    rcases List.mem_cons.mp hm with rfl | hmem
    · rw [if_pos rfl]
      have hz : (xs.map (fun d => if d0 = d then 1 else 0)).sum = 0 := by
        apply List.sum_eq_zero
        intro y hy
        rw [List.mem_map] at hy
        obtain ⟨d, hd, hdy⟩ := hy
        have : ¬ d0 = d := fun h => hx (h ▸ hd)
        rw [if_neg this] at hdy
        exact hdy.symm
      rw [hz]
    · have hne : ¬ d0 = x := fun h => hx (h ▸ hmem)
      rw [if_neg hne, ih hxs hmem]

theorem groupOf_cons_length (r : MetricRow) (t : List MetricRow)
    (d0 d : Nat) (hr : r.date = some d0) :
    (groupOf (r :: t) d).length =
      (if d0 = d then 1 else 0) + (groupOf t d).length := by
  rw [groupOf, List.filter_cons]
  by_cases h : d0 = d
  · rw [if_pos h]
    have hb : (r.date == some d) = true := by
      rw [hr, h]
      simp
    rw [if_pos hb]
    show (r :: groupOf t d).length = 1 + (groupOf t d).length
    rw [List.length_cons]
    omega
  · rw [if_neg h]
    have hb : ¬ ((r.date == some d) = true) := by
      rw [hr]
      simp
      omega
    rw [if_neg hb]
    show (groupOf t d).length = 0 + (groupOf t d).length
    omega

theorem sum_group_lengths (l : List Nat) (hnd : l.Nodup) :
    ∀ t : List MetricRow, (∀ r ∈ t, ∃ d ∈ l, r.date = some d) →
      (l.map (fun d => (groupOf t d).length)).sum = t.length := by
  intro t
  induction t with
  | nil =>
    intro _
    have : ∀ d, (groupOf ([] : List MetricRow) d).length = 0 := fun d => rfl
    simp [this]
  | cons r rest ih =>
    intro ht
    obtain ⟨d0, hd0l, hd0⟩ := ht r (List.mem_cons_self _ _)
    have hmap : l.map (fun d => (groupOf (r :: rest) d).length) =
        l.map (fun d => (if d0 = d then 1 else 0) + (groupOf rest d).length) := by
      apply List.map_congr_left
      intro d _
      exact groupOf_cons_length r rest d0 d hd0
    rw [hmap, sum_map_add, sum_indicator l d0 hnd hd0l,
      ih (fun r' hr' => ht r' (List.mem_cons_of_mem _ hr'))]
    rw [List.length_cons]
    omega

/-- **C1.**  For every per-file metric table whose rows carry a parsed date
and a non-null key column (as every row written by the extractors does), the
sum of the per-date counts produced by the Daily Aggregator equals the
number of input records, so the integrity `assert` passes and the aggregated
table is produced; and whenever the sums do differ, the aggregation step
fails with the assertion error before any output is returned for writing. -/
theorem daily_aggregation_integrity
    (df : List MetricRow) (inputName : String)
    (hdate : ∀ r ∈ df, r.date.isSome = true)
    (hkey : ∀ r ∈ df, r.key.isSome = true) :
    sumCounts (dailyAggregate df) = df.length ∧
    daily_main (some df) inputName = .ok (dailyAggregate df) ∧
    ∀ df' : List MetricRow,
      sumCounts (dailyAggregate df') ≠ df'.length →
      daily_main (some df') inputName =
        .error (.assertionError "ERROR: Aggregation dropped rows") := by
  have key : sumCounts (dailyAggregate df) = df.length := by
    rw [sumCounts, dailyAggregate, List.map_map]
    have hmap : (datesOf df).map ((fun r => r.n) ∘ dailyRowOf df) =
        (datesOf df).map (fun d => (groupOf df d).length) := by
      apply List.map_congr_left
      intro d _
      show ((groupOf df d).filter (fun r => r.key.isSome)).length =
        (groupOf df d).length
      apply congrArg List.length
      apply List.filter_eq_self.mpr
      intro r hr
      exact hkey r (List.mem_filter.mp hr).1
    rw [hmap]
    apply sum_group_lengths (datesOf df) (datesOf_nodup df) df
    intro r hr
    rcases hsome : r.date with _ | d
    · exfalso
      have hd := hdate r hr
      rw [hsome] at hd
      simp at hd
    · exact ⟨d, (mem_datesOf df d).mpr ⟨r, hr, hsome⟩, rfl⟩
  refine ⟨key, ?_, ?_⟩
  · simp [daily_main, key]
  · intro df' h
    simp [daily_main, h]

/-- Witness for C1 on a three-row table over two dates (one metric value
null). -/
theorem daily_aggregation_integrity_witness :
    sumCounts (dailyAggregate
      [⟨some 1, some "a", some 2⟩, ⟨some 1, some "b", none⟩,
       ⟨some 2, some "c", some 3⟩]) =
      ([⟨some 1, some "a", some 2⟩, ⟨some 1, some "b", none⟩,
        ⟨some 2, some "c", some 3⟩] : List MetricRow).length ∧
    daily_main (some
      [⟨some 1, some "a", some 2⟩, ⟨some 1, some "b", none⟩,
       ⟨some 2, some "c", some 3⟩]) "audio_quality.csv" =
      .ok (dailyAggregate
        [⟨some 1, some "a", some 2⟩, ⟨some 1, some "b", none⟩,
         ⟨some 2, some "c", some 3⟩]) := by
  have h := daily_aggregation_integrity
    [⟨some 1, some "a", some 2⟩, ⟨some 1, some "b", none⟩,
     ⟨some 2, some "c", some 3⟩] "audio_quality.csv"
    (by intro r hr; fin_cases hr <;> rfl)
    (by intro r hr; fin_cases hr <;> rfl)
  exact ⟨h.1, h.2.1⟩

theorem groupOf_append (t1 t2 : List MetricRow) (d : Nat) :
    groupOf (t1 ++ t2) d = groupOf t1 d ++ groupOf t2 d := by
  simp [groupOf, List.filter_append]

theorem groupOf_eq_nil (t : List MetricRow) (d : Nat)
    (h : ¬ HasDate t d) : groupOf t d = [] := by
  rw [groupOf, List.filter_eq_nil_iff]
  intro r hr
  intro hb
  exact h ⟨r, hr, by simpa using hb⟩

theorem dailyRowOf_append_left (t1 t2 : List MetricRow) (d : Nat)
    (h : ¬ HasDate t2 d) : dailyRowOf (t1 ++ t2) d = dailyRowOf t1 d := by
  rw [dailyRowOf, dailyRowOf, groupOf_append, groupOf_eq_nil t2 d h,
    List.append_nil]

theorem dailyRowOf_append_right (t1 t2 : List MetricRow) (d : Nat)
    (h : ¬ HasDate t1 d) : dailyRowOf (t1 ++ t2) d = dailyRowOf t2 d := by
  rw [dailyRowOf, dailyRowOf, groupOf_append, groupOf_eq_nil t1 d h,
    List.nil_append]

theorem hasDate_iff_mem_datesOf (t : List MetricRow) (d : Nat) :
    HasDate t d ↔ d ∈ datesOf t := (mem_datesOf t d).symm

theorem mem_datesOf_append (t1 t2 : List MetricRow) (d : Nat) :
    d ∈ datesOf (t1 ++ t2) ↔ HasDate t1 d ∨ HasDate t2 d := by
  rw [mem_datesOf]
  constructor
  · rintro ⟨r, hr, hd⟩
    rcases List.mem_append.mp hr with h1 | h2
    · exact Or.inl ⟨r, h1, hd⟩
    · exact Or.inr ⟨r, h2, hd⟩
  · rintro (⟨r, hr, hd⟩ | ⟨r, hr, hd⟩)
    · exact ⟨r, List.mem_append.mpr (Or.inl hr), hd⟩
    · exact ⟨r, List.mem_append.mpr (Or.inr hr), hd⟩

/-- **C8.**  Splitting a metric table into two parts with disjoint date
sets, aggregating each part, and taking the union of the resulting rows
gives exactly the rows of aggregating the concatenation: each date keeps the
same per-date record count and per-date metric mean.  (The claim — and this
row type — covers count and mean only, not the percentile columns.) -/
theorem dailyAggregate_additive (t1 t2 : List MetricRow)
    (hdisj : ∀ d, HasDate t1 d → HasDate t2 d → False) (row : DailyRow) :
    row ∈ dailyAggregate (t1 ++ t2) ↔
      (row ∈ dailyAggregate t1 ∨ row ∈ dailyAggregate t2) := by
  rw [dailyAggregate, dailyAggregate, dailyAggregate]
  simp only [List.mem_map]
  constructor
  · rintro ⟨d, hd, rfl⟩
    rcases (mem_datesOf_append t1 t2 d).mp hd with h1 | h2
    · left
      refine ⟨d, (hasDate_iff_mem_datesOf t1 d).mp h1, ?_⟩
      exact (dailyRowOf_append_left t1 t2 d (fun h2 => hdisj d h1 h2)).symm
    · right
      refine ⟨d, (hasDate_iff_mem_datesOf t2 d).mp h2, ?_⟩
      exact (dailyRowOf_append_right t1 t2 d (fun h1 => hdisj d h1 h2)).symm
  · rintro (⟨d, hd, rfl⟩ | ⟨d, hd, rfl⟩)
    · have h1 : HasDate t1 d := (hasDate_iff_mem_datesOf t1 d).mpr hd
      refine ⟨d, (mem_datesOf_append t1 t2 d).mpr (Or.inl h1), ?_⟩
      exact dailyRowOf_append_left t1 t2 d (fun h2 => hdisj d h1 h2)
    · have h2 : HasDate t2 d := (hasDate_iff_mem_datesOf t2 d).mpr hd
      refine ⟨d, (mem_datesOf_append t1 t2 d).mpr (Or.inr h2), ?_⟩
      exact dailyRowOf_append_right t1 t2 d (fun h1 => hdisj d h1 h2)

/-- Witness for C8 on two one-row tables with distinct dates. -/
theorem dailyAggregate_additive_witness :
    (⟨1, 1, some 2⟩ : DailyRow) ∈
        dailyAggregate ([⟨some 1, some "a", some 2⟩] ++ [⟨some 2, some "b", some 4⟩]) ↔
      ((⟨1, 1, some 2⟩ : DailyRow) ∈ dailyAggregate [⟨some 1, some "a", some 2⟩] ∨
       (⟨1, 1, some 2⟩ : DailyRow) ∈ dailyAggregate [⟨some 2, some "b", some 4⟩]) := by
  refine dailyAggregate_additive [⟨some 1, some "a", some 2⟩]
    [⟨some 2, some "b", some 4⟩] ?_ ⟨1, 1, some 2⟩
  rintro d ⟨r, hr, h1⟩ ⟨r', hr', h2⟩
  simp only [List.mem_singleton] at hr hr'
  subst hr
  subst hr'
  simp only [Option.some.injEq] at h1 h2
  omega

/-! ### Zero usable rows (C4) -/

/-- **C4, counterexample.**  `audio_quality.py` does not raise on zero usable
rows: when every worker result is an error record, `main` counts the error
and writes the empty table unconditionally (`df.to_csv` at the end of
`main`, with no emptiness check) — the run returns normally with an empty
output file. -/
theorem audio_quality_zero_rows_written :
    audio_quality_main [.error "decode failed"] = (1, []) := rfl

/-- **C4, amended.**  The behaviour on zero usable rows is per-script:
`audio_amplitude_scan_sampled.main` raises `RuntimeError` (and writes
nothing) when the sampling loop collects no rows, and
`parse_logs_to_csv.main` exits nonzero when no log files exist; but
`audio_quality.main` writes its output file unconditionally — with zero
usable rows it writes an empty table and reports only an error count. -/
theorem zero_usable_rows_behavior
    (rows : List SampledRow) (hrows : rows = [])
    (results : List (Except String MetricRow))
    (hres : ∀ x ∈ results, ∃ e, x = Except.error e)
    (pj : String → Option (List (String × JVal))) (maxLines : Option Int) :
    sampled_main rows =
      .error (.runtimeError "Sampling produced no rows — check AUDIO_ROOT") ∧
    (audio_quality_main results).2 = [] ∧
    parse_logs_main pj [] maxLines = .error (.systemExit 1) := by
  refine ⟨?_, ?_, ?_⟩
  · subst hrows
    rfl
  · rw [audio_quality_main]
    simp only
    rw [List.filterMap_eq_nil_iff]
    intro x hx
    obtain ⟨e, he⟩ := hres x hx
    rw [he]
  · rfl

/-- Witness for the amended C4 at one failing worker result. -/
theorem zero_usable_rows_behavior_witness :
    sampled_main [] =
      .error (.runtimeError "Sampling produced no rows — check AUDIO_ROOT") ∧
    (audio_quality_main [Except.error "decode failure"]).2 = [] ∧
    parse_logs_main (fun _ => none) [] (some 0) = .error (.systemExit 1) :=
  zero_usable_rows_behavior [] rfl [Except.error "decode failure"]
    (by
      intro x hx
      rw [List.mem_singleton] at hx
      exact ⟨"decode failure", hx⟩)
    (fun _ => none) (some 0)

/-! ### Log flattening (C6) -/

/-- **C6, counterexample.**  The flattener does not return a record for
*every* dictionary: on `{"dto": " "}` — a valid JSON record — the fallback
`date_str = dto.split()[0]` indexes an empty split and raises `IndexError`
instead of returning a flattened record. -/
theorem flatten_whitespace_dto_counterexample :
    flatten_log_record [("dto", JVal.str " ")] "traffic.txt.1" =
      .error .indexError := rfl

theorem except_bind_ok {α β : Type} (a : α) (f : α → Except PyErr β) :
    (Except.ok a : Except PyErr α) >>= f = f a := rfl

theorem frameDtoPart_ok (fd : JVal) (h : tsOkTwo fd) :
    ∃ p, frameDtoPart fd = .ok p := by
  rcases fd with _ | v | q | s | l | o
  · exact ⟨(none, none), rfl⟩
  · exact ⟨(none, none), rfl⟩
  · exact ⟨(none, none), rfl⟩
  · by_cases hs : containsSpace s = true
    · have hl := h s rfl hs
      rcases hsp : pySplitWs s with _ | ⟨a, _ | ⟨b, rest⟩⟩
      · rw [hsp] at hl
        simp at hl
      · rw [hsp] at hl
        simp at hl
      · exact ⟨(some a, some b), by simp [frameDtoPart, hs, hsp]⟩
    · exact ⟨(none, none), by simp [frameDtoPart, hs]⟩
  · exact ⟨(none, none), rfl⟩
  · exact ⟨(none, none), rfl⟩

theorem dtoFallback_ok (d : JVal) (h : tsOkOne d)
    (dt : Option String × Option String) :
    ∃ p, dtoFallback dt d = .ok p := by
  by_cases hn : dt.1.isNone = true
  · rcases d with _ | v | q | s | l | o
    · exact ⟨dt, by simp [dtoFallback, hn]⟩
    · exact ⟨dt, by simp [dtoFallback, hn]⟩
    · exact ⟨dt, by simp [dtoFallback, hn]⟩
    · by_cases hs : containsSpace s = true
      · have hl := h s rfl hs
        rcases hsp : pySplitWs s with _ | ⟨a, rest⟩
        · rw [hsp] at hl
          simp at hl
        · exact ⟨(some a, dt.2), by simp [dtoFallback, hn, hs, hsp]⟩
      · exact ⟨dt, by simp [dtoFallback, hn, hs]⟩
    · exact ⟨dt, by simp [dtoFallback, hn]⟩
    · exact ⟨dt, by simp [dtoFallback, hn]⟩
  · exact ⟨dt, by simp [dtoFallback, hn]⟩

theorem interPart_arr (l : List JVal) :
    interPart (.arr l) = .ok (l.getD 0 .null, l.getD 1 .null) := by
  rcases l with _ | ⟨a, _ | ⟨b, bs⟩⟩
  · rfl
  · rfl
  · simp [interPart, pyLen, pyIndex, except_bind_ok]

theorem crossRow_arr (l : List JVal) (row : Nat) :
    crossRow (.arr l) row = .ok (crossCell l row 0, crossCell l row 1) := by
  show (pyLen (.arr l) >>= fun n =>
    if row < n then
      pyIndex (.arr l) row >>= fun c =>
        match c with
        | .arr li => pure (li.getD 0 .null, li.getD 1 .null)
        | _ => pure (JVal.null, JVal.null)
    else pure (JVal.null, JVal.null)) = _
  rw [show pyLen (JVal.arr l) = Except.ok l.length from rfl, except_bind_ok]
  by_cases hrow : row < l.length
  · rw [if_pos hrow]
    rw [show pyIndex (JVal.arr l) row = Except.ok (l.get ⟨row, hrow⟩) from by
      simp only [pyIndex]
      rw [dif_pos hrow]]
    rw [except_bind_ok]
    have hgd : l.getD row .null = l.get ⟨row, hrow⟩ := by
      rw [List.getD_eq_getElem?_getD, List.getElem?_eq_getElem hrow]
      rfl
    rcases hc : l.get ⟨row, hrow⟩ with _ | v | q | s | li | o <;>
      simp only [crossCell, if_pos hrow, hgd, hc] <;> rfl
  · rw [if_neg hrow]
    simp only [crossCell, if_neg hrow]
    rfl

/-- **C6, amended.**  For every JSON log record whose timestamp fields are
benign (when `frame_dto` is a string containing a space its split has two
pieces, and likewise one piece for `dto`) and whose `intersection` and
`cross` fields normalize to arrays (they are arrays, or falsy values that
`or []` replaces by the empty array), the flattener returns a record with
the fixed column schema, destructuring the `box`, `intersection` and `cross`
arrays into fixed scalar columns with null for any absent position and
raising no index error; in particular the example line
`{"dto": "2024-06-01 10:00:00", "probs": 0.9, "box": [1,2,3,4]}` flattens to
`date="2024-06-01"`, `box_x1=1`, `box_y1=2`, `box_x2=3`, `box_y2=4`,
`probs=0.9`.  (Degenerate whitespace-only timestamp strings make the source
raise, as the counterexample shows, so the claim is restricted to benign
records.) -/
theorem flatten_guarded_destructuring :
    (∀ (rec : List (String × JVal)) (lf : String),
      tsOkTwo (jget rec "frame_dto") → tsOkOne (jget rec "dto") →
      (∃ li, pyOrEmpty (jget rec "intersection") = .arr li) →
      (∃ lc, pyOrEmpty (jget rec "cross") = .arr lc) →
      ∃ r : FlatRecord, flatten_log_record rec lf = .ok r ∧
        r.box_x1 = (boxListOf (jget rec "box")).getD 0 .null ∧
        r.box_y1 = (boxListOf (jget rec "box")).getD 1 .null ∧
        r.box_x2 = (boxListOf (jget rec "box")).getD 2 .null ∧
        r.box_y2 = (boxListOf (jget rec "box")).getD 3 .null ∧
        r.intersection_0 = (toArr (pyOrEmpty (jget rec "intersection"))).getD 0 .null ∧
        r.intersection_1 = (toArr (pyOrEmpty (jget rec "intersection"))).getD 1 .null ∧
        r.cross_0_0 = crossCell (toArr (pyOrEmpty (jget rec "cross"))) 0 0 ∧
        r.cross_0_1 = crossCell (toArr (pyOrEmpty (jget rec "cross"))) 0 1 ∧
        r.cross_1_0 = crossCell (toArr (pyOrEmpty (jget rec "cross"))) 1 0 ∧
        r.cross_1_1 = crossCell (toArr (pyOrEmpty (jget rec "cross"))) 1 1 ∧
        r.probs = jget rec "probs" ∧
        r.log_file = lf) ∧
    flatten_log_record exampleLogRec "traffic.txt.1" = .ok exampleFlat := by
  constructor
  · rintro rec lf h2 h1 ⟨li, hi⟩ ⟨lc, hc⟩
    obtain ⟨dtp, hdtp⟩ := frameDtoPart_ok _ h2
    obtain ⟨dt, hdt⟩ := dtoFallback_ok _ h1 dtp
    have hdtt : dateTimePart (jget rec "frame_dto") (jget rec "dto") = .ok dt := by
      rw [dateTimePart, hdtp]
      exact hdt
    have hflat : flatten_log_record rec lf = Except.ok
        { date := optStr (imgPart dt.1 (jget rec "img")).2, time := optStr dt.2,
          frame_dto := jget rec "frame_dto", dto := jget rec "dto",
          img_path := jget rec "img",
          img_file := optStr (imgPart dt.1 (jget rec "img")).1,
          dba := jget rec "dba", dba_dto := jget rec "dba_dto",
          intersection_0 := li.getD 0 .null, intersection_1 := li.getD 1 .null,
          cross_0_0 := crossCell lc 0 0, cross_0_1 := crossCell lc 0 1,
          cross_1_0 := crossCell lc 1 0, cross_1_1 := crossCell lc 1 1,
          probs := jget rec "probs", cls := jget rec "cls",
          point_len := jget rec "point_len",
          box_x1 := (boxListOf (jget rec "box")).getD 0 .null,
          box_y1 := (boxListOf (jget rec "box")).getD 1 .null,
          box_x2 := (boxListOf (jget rec "box")).getD 2 .null,
          box_y2 := (boxListOf (jget rec "box")).getD 3 .null,
          tid := jget rec "tid", seq_len := jget rec "seq_len",
          seq_path := jget rec "seq_path", log_file := lf } := by
      simp only [flatten_log_record, hdtt, except_bind_ok, hi, interPart_arr,
        hc, crossRow_arr]
      rfl
    exact ⟨_, hflat, rfl, rfl, rfl, rfl,
      by rw [hi]; rfl, by rw [hi]; rfl,
      by rw [hc]; rfl, by rw [hc]; rfl, by rw [hc]; rfl, by rw [hc]; rfl,
      rfl, rfl⟩
  · rfl

/-- Witness for the amended C6 at the spec's example log line. -/
theorem flatten_guarded_destructuring_witness :
    ∃ r : FlatRecord,
      flatten_log_record exampleLogRec "traffic.txt.1" = .ok r ∧
      r.box_x1 = (boxListOf (jget exampleLogRec "box")).getD 0 .null ∧
      r.box_y1 = (boxListOf (jget exampleLogRec "box")).getD 1 .null ∧
      r.box_x2 = (boxListOf (jget exampleLogRec "box")).getD 2 .null ∧
      r.box_y2 = (boxListOf (jget exampleLogRec "box")).getD 3 .null ∧
      r.intersection_0 =
        (toArr (pyOrEmpty (jget exampleLogRec "intersection"))).getD 0 .null ∧
      r.intersection_1 =
        (toArr (pyOrEmpty (jget exampleLogRec "intersection"))).getD 1 .null ∧
      r.cross_0_0 = crossCell (toArr (pyOrEmpty (jget exampleLogRec "cross"))) 0 0 ∧
      r.cross_0_1 = crossCell (toArr (pyOrEmpty (jget exampleLogRec "cross"))) 0 1 ∧
      r.cross_1_0 = crossCell (toArr (pyOrEmpty (jget exampleLogRec "cross"))) 1 0 ∧
      r.cross_1_1 = crossCell (toArr (pyOrEmpty (jget exampleLogRec "cross"))) 1 1 ∧
      r.probs = jget exampleLogRec "probs" ∧
      r.log_file = "traffic.txt.1" := by
  apply flatten_guarded_destructuring.1 exampleLogRec "traffic.txt.1"
  · intro s hs hsp
    rw [show jget exampleLogRec "frame_dto" = JVal.null from rfl] at hs
    cases hs
  · intro s hs hsp
    rw [show jget exampleLogRec "dto" = JVal.str "2024-06-01 10:00:00" from rfl] at hs
    cases hs
    decide
  · exact ⟨[], rfl⟩
  · exact ⟨[], rfl⟩

end Taxi
